import Mathlib

/-!
Verification development for the sherlog log-parsing engine
(`src/parser-wasm/src/lib.rs`) and its pattern-learning subsystem
(`src/parser-wasm/src/pattern_learning.rs`).

Strings are modelled as `List Char`.  The Rust `regex` patterns from the
source are embedded either through a small backtracking regex interpreter
(for patterns without word-boundary assertions) or as hand-written scanners
that follow the pattern shape directly (for the `\b`-carrying patterns).
Modelling notes:
* Rust's Unicode `\s` class is modelled by the full `White_Space` set;
  Rust's Unicode `\w`/`\d` classes are modelled by their ASCII fragments
  (all inputs exercised by the claims are ASCII).
* `f32` arithmetic in the pattern-learning subsystem is modelled by exact
  rational arithmetic (`Rat`).
* The `blake3` content hash used for fingerprints is modelled by the
  identity on its input string: the code relies only on the hash being a
  deterministic, collision-free key, which the preimage itself provides.
* `uuid::Uuid::new_v4()` record ids (opaque process-unique tokens, spec §9)
  are modelled by the record's creation index in the dedup map.
-/

/-- Strings are modelled as lists of characters. -/
abbrev Str := List Char

/-- Conversion `String.data` of a literal, used to write concrete inputs. -/
def strL (s : String) : Str := s.data

/-- Rust regex `\s` (Unicode `White_Space`). -/
def isWsChar (c : Char) : Bool :=
  c = ' ' || c = '\t' || c = '\n' || c = '\u000b' || c = '\u000c' ||
  c = '\r' || c = '\u0085' || c = '\u00a0' || c = '\u1680' ||
  ('\u2000' ≤ c && c ≤ '\u200a') || c = '\u2028' || c = '\u2029' ||
  c = '\u202f' || c = '\u205f' || c = '\u3000'

/-- Rust regex `\w` (ASCII fragment: letters, digits, underscore). -/
def isWordChar (c : Char) : Bool := c.isAlphanum || c = '_'

/-- Rust regex `\d` (ASCII fragment). -/
def isDigitChar (c : Char) : Bool := c.isDigit

/-!
## Regex interpreter

A small backtracking matcher with leftmost-first semantics (alternation
prefers the left branch, `star`/`opt` carry a greediness flag), matching the
Rust `regex` crate's preference order.  `eol` models `$` under `(?m)`,
`eos` models `$` without `(?m)`.  Star bodies in all embedded patterns
consume at least one character, so bounding the iteration count by the
input length does not change the semantics.
-/

/-- Regex abstract syntax. -/
inductive RE where
  | eps : RE
  | cls : (Char → Bool) → RE
  | seq : RE → RE → RE
  | alt : RE → RE → RE
  | star : Bool → RE → RE
  | opt : Bool → RE → RE
  | grp : Nat → RE → RE
  | eol : RE
  | eos : RE

/-- Capture list: group index paired with captured text. -/
abbrev Caps := List (Nat × Str)

/-- Iterated matching for `star`: the body matcher is applied repeatedly,
each iteration required to consume input (all embedded star bodies consume
at least one character, so the iteration count is bounded by the input
length and the bound never changes the semantics). -/
def starIter (g : Bool) (step : Str → List (Caps × Str)) :
    Nat → Str → List (Caps × Str)
  | 0, s => [([], s)]
  | fuel + 1, s =>
      let deeper :=
        (step s).flatMap fun pr =>
          if pr.2.length < s.length then
            (starIter g step fuel pr.2).map fun qr => (pr.1 ++ qr.1, qr.2)
          else []
      if g then deeper ++ [([], s)] else ([], s) :: deeper

/-- All matches of `r` against a prefix of `s`, in backtracking preference
order; each entry is the captured groups and the remaining suffix. -/
def reMatch : RE → Str → List (Caps × Str)
  | .eps, s => [([], s)]
  | .cls _, [] => []
  | .cls p, c :: rest => if p c then [([], rest)] else []
  | .seq a b, s =>
      (reMatch a s).flatMap fun pr =>
        (reMatch b pr.2).map fun qr => (pr.1 ++ qr.1, qr.2)
  | .alt a b, s => reMatch a s ++ reMatch b s
  | .star g a, s => starIter g (reMatch a) s.length s
  | .opt g a, s =>
      if g then reMatch a s ++ [([], s)] else ([], s) :: reMatch a s
  | .grp i a, s =>
      (reMatch a s).map fun pr =>
        (pr.1 ++ [(i, s.take (s.length - pr.2.length))], pr.2)
  | .eol, s => if s.isEmpty || s.head? = some '\n' then [([], s)] else []
  | .eos, s => if s.isEmpty then [([], s)] else []

/-- First (preferred) match of `r` anchored at the start of `s`. -/
def reMatchAt (r : RE) (s : Str) : Option Caps :=
  ((reMatch r s).head?).map (·.1)

/-- Unanchored search: captures of the leftmost-first match. -/
def reFind (r : RE) (s : Str) : Option Caps :=
  match (reMatch r s).head? with
  | some pr => some pr.1
  | none =>
      match s with
      | [] => none
      | _ :: rest => reFind r rest

/-- Look up a capture group in a capture list. -/
def capGet (caps : Caps) (i : Nat) : Option Str :=
  (caps.find? (fun p => p.1 = i)).map (·.2)

/-- Literal character. -/
def reLit (c : Char) : RE := .cls (· = c)

/-- Case-insensitive literal character (for `(?i)` patterns). -/
def reLitCI (c : Char) : RE := .cls (fun x => x.toLower = c.toLower)

/-- Literal string. -/
def reStr (cs : Str) : RE := cs.foldr (fun c r => .seq (reLit c) r) .eps

/-- Case-insensitive literal string. -/
def reStrCI (cs : Str) : RE := cs.foldr (fun c r => .seq (reLitCI c) r) .eps

/-- Greedy `+`. -/
def rePlus (r : RE) : RE := .seq r (.star true r)

/-- Lazy `+?`. -/
def rePlusLazy (r : RE) : RE := .seq r (.star false r)

/-- Class `.` (any character except newline). -/
def reDot : RE := .cls (· ≠ '\n')

/-- Class `\s`. -/
def reWs : RE := .cls isWsChar

/-- Class `\d`. -/
def reDigit : RE := .cls isDigitChar

/-- Repetition `\d{n}` (exact count). -/
def reDigits (n : Nat) : RE :=
  match n with
  | 0 => .eps
  | n + 1 => .seq reDigit (reDigits n)

/-- Left-nested alternation of a list of regexes (first alternative
preferred, as in the Rust source order). -/
def reAlts (rs : List RE) : RE :=
  match rs with
  | [] => .eps
  | [r] => r
  | r :: rest => .alt r (reAlts rest)

/-- Sequence of regexes. -/
def reSeqs (rs : List RE) : RE := rs.foldr .seq .eps

/-!
## Embedded patterns from `lazy_static!` (lib.rs lines 86-190)

For `(?m)^.*?...` patterns the `^.*?` prefix is realized by the positional
scan of `reFind` (equivalent for the leftmost match, as `.*?` is lazy), so
the embedded regex is the part after that prefix; the prefix capture group
of `PYTHON_ERROR` is never read by the code.
-/

/-- Pattern `NODE_ERROR`:
`(?m)^.*?(Error|Exception|TypeError|ReferenceError|SyntaxError|RangeError|URIError|EvalError):\s*(.+?)$` -/
def NODE_ERROR_re : RE :=
  reSeqs [.grp 1 (reAlts [reStr (strL ("Error")), reStr (strL ("Exception")),
      reStr (strL ("TypeError")), reStr (strL ("ReferenceError")),
      reStr (strL ("SyntaxError")), reStr (strL ("RangeError")),
      reStr (strL ("URIError")), reStr (strL ("EvalError"))]),
    reLit ':', .star true reWs, .grp 2 (rePlusLazy reDot), .eol]

/-- Pattern `PYTHON_ERROR`: `(?m)^(.*?)(Error|Exception|Warning):\s*(.+?)$`
(group 1 is the scanned-over prefix). -/
def PYTHON_ERROR_re : RE :=
  reSeqs [.grp 2 (reAlts [reStr (strL ("Error")), reStr (strL ("Exception")),
      reStr (strL ("Warning"))]),
    reLit ':', .star true reWs, .grp 3 (rePlusLazy reDot), .eol]

/-- Pattern `JAVA_ERROR`: `(?m)^.*?(Exception|Error):\s*(.+?)$` -/
def JAVA_ERROR_re : RE :=
  reSeqs [.grp 1 (reAlts [reStr (strL ("Exception")), reStr (strL ("Error"))]),
    reLit ':', .star true reWs, .grp 2 (rePlusLazy reDot), .eol]

/-- Pattern `NODE_STACK`: `at\s+(?:(.+?)\s+\()?([^:]+):(\d+):(\d+)\)?` -/
def NODE_STACK_re : RE :=
  reSeqs [reStr (strL ("at")), rePlus reWs,
    .opt true (reSeqs [.grp 1 (rePlusLazy reDot), rePlus reWs, reLit '(']),
    .grp 2 (rePlus (.cls (· ≠ ':'))), reLit ':',
    .grp 3 (rePlus reDigit), reLit ':', .grp 4 (rePlus reDigit),
    .opt true (reLit ')')]

/-- Pattern `PYTHON_STACK`: `File\s+"([^"]+)",\s+line\s+(\d+)` -/
def PYTHON_STACK_re : RE :=
  reSeqs [reStr (strL ("File")), rePlus reWs, reLit '"',
    .grp 1 (rePlus (.cls (· ≠ '"'))), reLit '"', reLit ',',
    rePlus reWs, reStr (strL ("line")), rePlus reWs,
    .grp 2 (rePlus reDigit)]

/-- Pattern `JAVA_STACK`: `at\s+([^\(]+)\(([^:]+):(\d+)\)` -/
def JAVA_STACK_re : RE :=
  reSeqs [reStr (strL ("at")), rePlus reWs,
    .grp 1 (rePlus (.cls (· ≠ '('))), reLit '(',
    .grp 2 (rePlus (.cls (· ≠ ':'))), reLit ':',
    .grp 3 (rePlus reDigit), reLit ')']

/-- Pattern `GO_STACK`, first branch: `^\s*([^\s]+)\(([^)]*)\)\s*$` -/
def GO_STACK_re1 : RE :=
  reSeqs [.star true reWs, .grp 1 (rePlus (.cls (fun c => !isWsChar c))),
    reLit '(', .grp 2 (.star true (.cls (· ≠ ')'))), reLit ')',
    .star true reWs, .eos]

/-- Pattern `GO_STACK`, second branch: `^\s+([^:]+):(\d+)\s+[+0-9a-fx]+` -/
def GO_STACK_re2 : RE :=
  reSeqs [rePlus reWs, .grp 3 (rePlus (.cls (· ≠ ':'))), reLit ':',
    .grp 4 (rePlus reDigit), rePlus reWs,
    rePlus (.cls (fun c => c = '+' || isDigitChar c ||
      ('a' ≤ c && c ≤ 'f') || c = 'x'))]

/-- Pattern `GO_STACK`: both alternatives are `^`-anchored (non-multiline), so the
whole pattern is matched at position 0 only. -/
def GO_STACK_re : RE := .alt GO_STACK_re1 GO_STACK_re2

/-- Pattern `RUST_PANIC`: `at\s+([^\(]+)\s+\(([^:]+):(\d+):(\d+)\)` -/
def RUST_PANIC_re : RE :=
  reSeqs [reStr (strL ("at")), rePlus reWs,
    .grp 1 (rePlus (.cls (· ≠ '('))), rePlus reWs, reLit '(',
    .grp 2 (rePlus (.cls (· ≠ ':'))), reLit ':',
    .grp 3 (rePlus reDigit), reLit ':', .grp 4 (rePlus reDigit),
    reLit ')']

/-- Pattern `CAUSED_BY`: `(?i)^\s*(?:Caused by|Suppressed):\s*(.+)`
(`^`-anchored, non-multiline). -/
def CAUSED_BY_re : RE :=
  reSeqs [.star true reWs,
    .alt (reStrCI (strL ("Caused by"))) (reStrCI (strL ("Suppressed"))),
    reLit ':', .star true reWs, .grp 1 (rePlus reDot)]

/-- Pattern `CODE_CONTEXT`: `^\s*(?:\d+\s*[|>]|>)\s*.+` (`^`-anchored). -/
def CODE_CONTEXT_re : RE :=
  reSeqs [.star true reWs,
    .alt (reSeqs [rePlus reDigit, .star true reWs,
            .cls (fun c => c = '|' || c = '>')])
         (reLit '>'),
    .star true reWs, rePlus reDot]

/-- Pattern `TIMESTAMP`:
`(\d{4}-\d{2}-\d{2}[T\s]\d{2}:\d{2}:\d{2}(?:\.\d{3})?(?:Z|[+-]\d{2}:?\d{2})?)` -/
def TIMESTAMP_re : RE :=
  .grp 1 (reSeqs [reDigits 4, reLit '-', reDigits 2, reLit '-', reDigits 2,
    .cls (fun c => c = 'T' || isWsChar c),
    reDigits 2, reLit ':', reDigits 2, reLit ':', reDigits 2,
    .opt true (.seq (reLit '.') (reDigits 3)),
    .opt true (.alt (reLit 'Z')
      (reSeqs [.cls (fun c => c = '+' || c = '-'), reDigits 2,
        .opt true (reLit ':'), reDigits 2]))])

/-!
## Hand-written scanners for the `\b`-carrying patterns

`LOG_LEVEL_*`, `GENERIC_*` and the `VAR_*` patterns use `\b` word-boundary
assertions; they are embedded as direct scanners that track whether the
previous character is a word character.
-/

/-- Consume a case-insensitive literal keyword, returning the rest. -/
def dropKwCI (kw s : Str) : Option Str :=
  match kw, s with
  | [], s => some s
  | _ :: _, [] => none
  | k :: ks, c :: cs => if c.toLower = k.toLower then dropKwCI ks cs else none

/-- Assertion `\b` holds after a keyword ending in a word character iff the next
character is absent or not a word character. -/
def boundaryAfter (s : Str) : Bool :=
  match s with
  | [] => true
  | c :: _ => !isWordChar c

/-- Does one of the keywords (case-insensitively) start here, followed by a
word boundary? -/
def kwSetAt (kws : List Str) (s : Str) : Bool :=
  kws.any fun kw =>
    match dropKwCI kw s with
    | some rest => boundaryAfter rest
    | none => false

/-- Search `(?i)\b(KW1|KW2|...)\b` searched anywhere: scan tracking whether the
previous character is a word character (boundary before each keyword, which
starts with a letter). -/
def genericKwSearch (kws : List Str) (prevWord : Bool) (s : Str) : Bool :=
  match s with
  | [] => false
  | c :: rest =>
      (!prevWord && kwSetAt kws (c :: rest)) ||
      genericKwSearch kws (isWordChar c) rest

/-- Keywords of `LOG_LEVEL_ERROR` / `GENERIC_ERROR`. -/
def errorKeywords : List Str := [strL ("ERROR"), strL ("FATAL"), strL ("CRITICAL")]

/-- Keywords of `LOG_LEVEL_WARN` / `GENERIC_WARN`. -/
def warnKeywords : List Str := [strL ("WARN"), strL ("WARNING")]

/-- Keywords of `LOG_LEVEL_INFO` / `GENERIC_INFO`. -/
def infoKeywords : List Str := [strL ("INFO"), strL ("DEBUG"), strL ("TRACE")]

/-- Matcher `GENERIC_ERROR`: `(?i)\b(ERROR|FATAL|CRITICAL)\b`. -/
def genericErrorMatch (line : Str) : Bool :=
  genericKwSearch errorKeywords false line

/-- Matcher `GENERIC_WARN`: `(?i)\b(WARN|WARNING)\b`. -/
def genericWarnMatch (line : Str) : Bool :=
  genericKwSearch warnKeywords false line

/-- Matcher `GENERIC_INFO`: `(?i)\b(INFO|DEBUG|TRACE)\b`. -/
def genericInfoMatch (line : Str) : Bool :=
  genericKwSearch infoKeywords false line

/-- Consume exactly `n` characters satisfying `p`. -/
def dropSat (p : Char → Bool) : Nat → Str → Option Str
  | 0, s => some s
  | _ + 1, [] => none
  | n + 1, c :: cs => if p c then dropSat p n cs else none

/-- Consume one expected literal character. -/
def dropLit (c : Char) (s : Str) : Option Str :=
  match s with
  | [] => none
  | x :: rest => if x = c then some rest else none

/-- The fixed ISO-like timestamp prefix of the `LOG_LEVEL_*` patterns:
`^\d{4}-\d{2}-\d{2}[T\s]\d{2}:\d{2}:\d{2}` (under `(?i)`, `[T\s]` also
matches `t`). -/
def tsLevelStamp (s : Str) : Option Str := do
  let s ← dropSat isDigitChar 4 s
  let s ← dropLit '-' s
  let s ← dropSat isDigitChar 2 s
  let s ← dropLit '-' s
  let s ← dropSat isDigitChar 2 s
  let s ← dropSat (fun c => c = 'T' || c = 't' || isWsChar c) 1 s
  let s ← dropSat isDigitChar 2 s
  let s ← dropLit ':' s
  let s ← dropSat isDigitChar 2 s
  let s ← dropLit ':' s
  dropSat isDigitChar 2 s

/-- The `[^\[\]]*\s+(KW...)\b` tail of the `LOG_LEVEL_*` patterns: some
whitespace character followed by a keyword-with-boundary must occur before
any `[` or `]`. -/
def levelTail (kws : List Str) : Str → Bool
  | [] => false
  | c :: rest =>
      if c = '[' || c = ']' then false
      else (isWsChar c && kwSetAt kws rest) || levelTail kws rest

/-- Shared shape of `LOG_LEVEL_ERROR`/`LOG_LEVEL_WARN`/`LOG_LEVEL_INFO`:
`(?i)^\d{4}-\d{2}-\d{2}[T\s]\d{2}:\d{2}:\d{2}[^\[\]]*\s+(KWS)\b`. -/
def logLevelMatch (kws : List Str) (line : Str) : Bool :=
  match tsLevelStamp line with
  | some rest => levelTail kws rest
  | none => false

/-- Matcher `LOG_LEVEL_ERROR.is_match`. -/
def logLevelErrorMatch (line : Str) : Bool := logLevelMatch errorKeywords line

/-- Matcher `LOG_LEVEL_WARN.is_match`. -/
def logLevelWarnMatch (line : Str) : Bool := logLevelMatch warnKeywords line

/-- Matcher `LOG_LEVEL_INFO.is_match`. -/
def logLevelInfoMatch (line : Str) : Bool := logLevelMatch infoKeywords line

/-!
## String helpers (models of Rust `str` methods)
-/

/-- Model of Rust `str::starts_with`. -/
def startsWithL (pre s : Str) : Bool :=
  match pre, s with
  | [], _ => true
  | _ :: _, [] => false
  | p :: ps, c :: cs => p = c && startsWithL ps cs

/-- Model of Rust `str::contains` (substring search). -/
def containsSub (pat s : Str) : Bool :=
  match s with
  | [] => startsWithL pat []
  | c :: rest => startsWithL pat (c :: rest) || containsSub pat rest

theorem startsWithL_length {pre s : Str} (h : startsWithL pre s = true) :
    pre.length ≤ s.length := by
  induction pre generalizing s with
  | nil => simp
  | cons p ps ih =>
      cases s with
      | nil => simp [startsWithL] at h
      | cons c cs =>
          simp only [startsWithL, Bool.and_eq_true] at h
          simpa using ih h.2

/-- Fueled core of `str::replace`; every step consumes at least one input
character, so `s.length` fuel always suffices and the zero-fuel case is
unreachable from the wrapper. -/
def listReplaceF (fuel : Nat) (s pat rep : Str) : Str :=
  match fuel, s with
  | 0, s => s
  | _ + 1, [] => []
  | fuel + 1, c :: rest =>
      if pat ≠ [] ∧ startsWithL pat (c :: rest) = true then
        rep ++ listReplaceF fuel ((c :: rest).drop pat.length) pat rep
      else
        c :: listReplaceF fuel rest pat rep

/-- Model of Rust `str::replace` (replace all non-overlapping occurrences, left to
right).  The `pat = []` case (unused by the code) returns the input. -/
def listReplace (s pat rep : Str) : Str := listReplaceF s.length s pat rep

/-- Model of Rust `str::trim` (`char::is_whitespace` on both ends). -/
def trimList (s : Str) : Str :=
  ((s.dropWhile isWsChar).reverse.dropWhile isWsChar).reverse

/-- Model of Rust `str::to_lowercase` (simple per-character lowercasing; adequate
for the ASCII inputs exercised here). -/
def toLowerL (s : Str) : Str := s.map Char.toLower

/-- Fueled decimal printer (the value shrinks every step, so `n + 1` fuel
always suffices). -/
def natToStrF (fuel : Nat) (n : Nat) : Str :=
  match fuel with
  | 0 => []
  | fuel + 1 =>
      if n < 10 then [Char.ofNat (48 + n)]
      else natToStrF fuel (n / 10) ++ [Char.ofNat (48 + n % 10)]

/-- Decimal digits of a number, most significant first. -/
def natToStr (n : Nat) : Str := natToStrF (n + 1) n

/-- Digits to a number. -/
def digitsToNat (s : Str) : Nat :=
  s.foldl (fun n c => 10 * n + (c.toNat - 48)) 0

/-- Model of Rust `str::parse::<u32>` (optional leading `+`, decimal digits,
rejecting values outside `u32`). -/
def parseU32 (s : Str) : Option Nat :=
  let digits := if s.head? = some '+' then s.tail else s
  if digits ≠ [] ∧ digits.all isDigitChar then
    let n := digitsToNat digits
    if n < 2 ^ 32 then some n else none
  else none

/-- Model of Rust `str::split(sep)` (keeps empty pieces). -/
def splitOnSep (sep : Char) (s : Str) : List Str :=
  match s with
  | [] => [[]]
  | c :: rest =>
      if c = sep then [] :: splitOnSep sep rest
      else
        match splitOnSep sep rest with
        | [] => [[c]]
        | g :: gs => (c :: g) :: gs

/-!
## `VAR_*` scanners (lib.rs lines 174-189) and `captures_iter`

Each scanner walks the string left to right, tracking whether the previous
character is a word character (for the leading `\b`); after a match it
resumes right after the matched text (non-overlapping matches, as
`captures_iter` does).  All matched texts end in a word character, so the
tracked flag is `true` after a match.
-/

/-- Class `[a-f0-9]` (case-sensitive, as in the source). -/
def isHexChar (c : Char) : Bool := isDigitChar c || ('a' ≤ c && c ≤ 'f')

/-- Try `VAR_UUID` = `\b[a-f0-9]{8}-[a-f0-9]{4}-[a-f0-9]{4}-[a-f0-9]{4}-[a-f0-9]{12}\b`
at the current position (boundary before is the caller's concern);
returns the matched text (36 characters). -/
def tryUuid (s : Str) : Option Str := do
  let r ← dropSat isHexChar 8 s
  let r ← dropLit '-' r
  let r ← dropSat isHexChar 4 r
  let r ← dropLit '-' r
  let r ← dropSat isHexChar 4 r
  let r ← dropLit '-' r
  let r ← dropSat isHexChar 4 r
  let r ← dropLit '-' r
  let r ← dropSat isHexChar 12 r
  if boundaryAfter r then some (s.take 36) else none

/-- One `\d{1,3}` group of `VAR_IP` followed by a literal `.`; with
backtracking, the group matches exactly the maximal digit run, which must
have length 1-3. -/
def ipGroupDot (s : Str) : Option Str :=
  let d := s.takeWhile isDigitChar
  if 1 ≤ d.length ∧ d.length ≤ 3 then
    match s.drop d.length with
    | '.' :: _ => some d
    | _ => none
  else none

/-- Try `VAR_IP` = `\b(?:\d{1,3}\.){3}\d{1,3}\b` at the current position;
returns the matched text. -/
def tryIp (s : Str) : Option Str :=
  match ipGroupDot s with
  | none => none
  | some d1 =>
    match ipGroupDot (s.drop (d1.length + 1)) with
    | none => none
    | some d2 =>
      match ipGroupDot ((s.drop (d1.length + 1)).drop (d2.length + 1)) with
      | none => none
      | some d3 =>
        let r3 :=
          ((s.drop (d1.length + 1)).drop (d2.length + 1)).drop
            (d3.length + 1)
        let d4 := r3.takeWhile isDigitChar
        if 1 ≤ d4.length ∧ d4.length ≤ 3 ∧
            boundaryAfter (r3.drop d4.length) then
          some (d1 ++ '.' :: d2 ++ '.' :: d3 ++ '.' :: d4)
        else none

/-- Try `VAR_NUMERIC_ID` = `\b\d{4,}\b` at the current position; the greedy
`\d{4,}` with the trailing `\b` matches exactly the maximal digit run. -/
def tryNumericId (s : Str) : Option Str :=
  let d := s.takeWhile isDigitChar
  if 4 ≤ d.length ∧ boundaryAfter (s.drop d.length) then some d else none

/-- Generic `captures_iter` over a `\b`-headed pattern: all non-overlapping
matches, left to right.  `tryAt` returns the matched (non-empty,
word-character-terminated) text when the pattern matches at this position. -/
def scanBMF (tryAt : Str → Option Str) :
    Nat → Bool → Str → List Str
  | 0, _, _ => []
  | _ + 1, _, [] => []
  | fuel + 1, prevWord, c :: rest =>
      if prevWord then scanBMF tryAt fuel (isWordChar c) rest
      else
        match tryAt (c :: rest) with
        | some m => m :: scanBMF tryAt fuel true (rest.drop (m.length - 1))
        | none => scanBMF tryAt fuel (isWordChar c) rest

/-- Wrapper: every step consumes at least one input character, so
`s.length` fuel always suffices. -/
def scanBMatches (tryAt : Str → Option Str) (prevWord : Bool) (s : Str) :
    List Str :=
  scanBMF tryAt s.length prevWord s

/-- Matches of `VAR_UUID.captures_iter(message)`, matched texts. -/
def scanUuid (message : Str) : List Str := scanBMatches tryUuid false message

/-- Matches of `VAR_IP.captures_iter(message)`, matched texts. -/
def scanIp (message : Str) : List Str := scanBMatches tryIp false message

/-- Matches of `VAR_NUMERIC_ID.captures_iter(message)`, matched texts. -/
def scanNumericId (message : Str) : List Str :=
  scanBMatches tryNumericId false message

/-!
## Types & structs (lib.rs lines 14-80)
-/

/-- Source `enum ErrorType`. -/
inductive ErrorType where
  | Error : ErrorType
  | Warning : ErrorType
  | Info : ErrorType
deriving DecidableEq, Repr

/-- Source `enum Severity`. -/
inductive Severity where
  | Critical : Severity
  | High : Severity
  | Medium : Severity
  | Low : Severity
deriving DecidableEq, Repr

/-- Source `enum VariableType`. -/
inductive VariableType where
  | NumericId : VariableType
  | IpAddress : VariableType
  | Uuid : VariableType
deriving DecidableEq, Repr

/-- Source `struct Variable`. -/
structure Variable where
  placeholder : Str
  value : Str
  var_type : VariableType
deriving DecidableEq, Repr

/-- Source `struct ParsedError`.  `id` models the `uuid::Uuid::new_v4()` token by
the record's creation index; counters (`u32`/`usize`) are modelled by `Nat`
(no input considered here approaches the wrap-around range). -/
structure ParsedError where
  id : Nat
  error_type : ErrorType
  severity : Severity
  message : Str
  template : Str
  «variables» : List Variable
  full_trace : Str
  file : Option Str
  line : Option Nat
  column : Option Nat
  occurrences : Nat
  timestamp : Option Str
  fingerprint : Str
deriving DecidableEq, Repr

/-- Source `struct LogStats`. -/
structure LogStats where
  total_lines : Nat
  total_errors : Nat
  total_warnings : Nat
  total_info : Nat
  unique_errors : Nat
deriving DecidableEq, Repr

/-- Source `struct ParseResult`. -/
structure ParseResult where
  summary : LogStats
  errors : List ParsedError
deriving DecidableEq, Repr

/-- Placeholder `{UUID}`. -/
def uuidPH : Str := strL ("\x7bUUID\x7d")

/-- Placeholder `{IP}`. -/
def ipPH : Str := strL ("\x7bIP\x7d")

/-- Placeholder `{ID}`. -/
def idPH : Str := strL ("\x7bID\x7d")

/-!
## Helper functions (lib.rs lines 196-512)
-/

/-- Source `generate_fingerprint` (lib.rs 200-209).  The blake3 hex digest is
modelled by the identity on `combined`: the code relies only on the hash
being a deterministic collision-free key, which the preimage provides. -/
def generate_fingerprint (template : Str) (file : Option Str)
    (line : Option Nat) : Str :=
  let file_part := file.getD []
  let line_part := (line.map natToStr).getD []
  toLowerL (trimList template) ++ ':' :: file_part ++ ':' :: line_part

/-- Source `extract_timestamp` (lib.rs 212-216). -/
def extract_timestamp (line : Str) : Option Str :=
  (reFind TIMESTAMP_re line).bind (fun caps => capGet caps 1)

/-- The octet validation inside `extract_template` (lib.rs 248-253). -/
def is_valid_ip (value : Str) : Bool :=
  let parts := splitOnSep '.' value
  parts.length = 4 && parts.all fun p =>
    match parseU32 p with
    | some n => n ≤ 255
    | none => false

/-- Source `extract_template` (lib.rs 221-282): three passes (UUID, then IPv4 with
octet validation, then numeric ids of length ≥ 4), each scanning the
original `message`, pushing one `Variable` per match occurrence and
replacing every occurrence of the matched text in the running template. -/
def extract_template (message : Str) : Str × List Variable :=
  let st1 := (scanUuid message).foldl
    (fun (acc : Str × List Variable) value =>
      (listReplace acc.1 value uuidPH,
       acc.2 ++ [⟨uuidPH, value, .Uuid⟩]))
    (message, [])
  let st2 := (scanIp message).foldl
    (fun acc value =>
      if is_valid_ip value then
        (listReplace acc.1 value ipPH,
         acc.2 ++ [⟨ipPH, value, .IpAddress⟩])
      else acc)
    st1
  (scanNumericId message).foldl
    (fun acc value =>
      (listReplace acc.1 value idPH,
       acc.2 ++ [⟨idPH, value, .NumericId⟩]))
    st2

/-- Source `determine_error_type` (lib.rs 288-318). -/
def determine_error_type (line : Str) : ErrorType :=
  if logLevelErrorMatch line then .Error
  else if logLevelWarnMatch line then .Warning
  else if logLevelInfoMatch line then .Info
  else if (reFind NODE_ERROR_re line).isSome ||
          (reFind PYTHON_ERROR_re line).isSome ||
          (reFind JAVA_ERROR_re line).isSome then .Error
  else if genericErrorMatch line then .Error
  else if genericWarnMatch line then .Warning
  else if genericInfoMatch line then .Info
  else .Info

/-- Source `determine_severity` (lib.rs 321-340). -/
def determine_severity (error_type : ErrorType) (message : Str) : Severity :=
  match error_type with
  | .Error =>
      if containsSub (strL ("fatal")) (toLowerL message) ||
         containsSub (strL ("critical")) (toLowerL message) ||
         containsSub (strL ("segfault")) (toLowerL message) ||
         containsSub (strL ("panic")) (toLowerL message) then .Critical
      else if containsSub (strL ("null")) (toLowerL message) ||
              containsSub (strL ("undefined")) (toLowerL message) ||
              containsSub (strL ("reference")) (toLowerL message) then .High
      else .Medium
  | .Warning => .Low
  | .Info => .Low

/-- Source `extract_node_location` (lib.rs 343-351). -/
def extract_node_location (stack_line : Str) :
    Option Str × Option Nat × Option Nat :=
  match reFind NODE_STACK_re stack_line with
  | some caps =>
      (capGet caps 2, (capGet caps 3).bind parseU32,
       (capGet caps 4).bind parseU32)
  | none => (none, none, none)

/-- Source `extract_python_location` (lib.rs 354-361). -/
def extract_python_location (stack_line : Str) :
    Option Str × Option Nat × Option Nat :=
  match reFind PYTHON_STACK_re stack_line with
  | some caps => (capGet caps 1, (capGet caps 2).bind parseU32, none)
  | none => (none, none, none)

/-- Source `extract_java_location` (lib.rs 364-371). -/
def extract_java_location (stack_line : Str) :
    Option Str × Option Nat × Option Nat :=
  match reFind JAVA_STACK_re stack_line with
  | some caps => (capGet caps 2, (capGet caps 3).bind parseU32, none)
  | none => (none, none, none)

/-- Source `extract_go_location` (lib.rs 374-385). -/
def extract_go_location (stack_line : Str) :
    Option Str × Option Nat × Option Nat :=
  match reMatchAt GO_STACK_re stack_line with
  | some caps =>
      match capGet caps 3 with
      | some file => (some file, (capGet caps 4).bind parseU32, none)
      | none => (none, none, none)
  | none => (none, none, none)

/-- Source `extract_rust_location` (lib.rs 388-396). -/
def extract_rust_location (stack_line : Str) :
    Option Str × Option Nat × Option Nat :=
  match reFind RUST_PANIC_re stack_line with
  | some caps =>
      (capGet caps 2, (capGet caps 3).bind parseU32,
       (capGet caps 4).bind parseU32)
  | none => (none, none, none)

/-- Source `is_stack_trace_line` (lib.rs 399-443). -/
def is_stack_trace_line (line : Str) : Bool :=
  let trimmed := trimList line
  startsWithL (strL ("at ")) trimmed ||
  containsSub (strL ("    at ")) line ||
  startsWithL (strL ("File \"")) trimmed ||
  startsWithL (strL ("File '")) trimmed ||
  (reFind JAVA_STACK_re line).isSome ||
  (reMatchAt GO_STACK_re line).isSome ||
  (reFind RUST_PANIC_re line).isSome ||
  (reMatchAt CAUSED_BY_re line).isSome ||
  (reMatchAt CODE_CONTEXT_re line).isSome ||
  (0 < trimmed.length && startsWithL (strL ("    ")) line &&
    !startsWithL (strL ("//")) trimmed)

/-- Source `extract_location_any_format` (lib.rs 446-478). -/
def extract_location_any_format (line : Str) :
    Option Str × Option Nat × Option Nat :=
  let n := extract_node_location line
  if n.1.isSome then n
  else
    let p := extract_python_location line
    if p.1.isSome then p
    else
      let j := extract_java_location line
      if j.1.isSome then j
      else
        let g := extract_go_location line
        if g.1.isSome then g
        else
          let r := extract_rust_location line
          if r.1.isSome then r
          else (none, none, none)

/-- Source `extract_error_message` (lib.rs 481-512). -/
def extract_error_message (line : Str) : Str :=
  match (reFind NODE_ERROR_re line).bind (fun caps => capGet caps 2) with
  | some msg => msg
  | none =>
  match (reFind PYTHON_ERROR_re line).bind (fun caps => capGet caps 3) with
  | some msg => msg
  | none =>
  match (reFind JAVA_ERROR_re line).bind (fun caps => capGet caps 2) with
  | some msg => msg
  | none =>
  match (reMatchAt CAUSED_BY_re line).bind (fun caps => capGet caps 1) with
  | some msg => msg
  | none => trimList line

/-!
## Main parsing logic (lib.rs 519-659) and streaming parser (667-833)
-/

/-- Association-list lookup for the dedup map (`HashMap::get_mut`). -/
def assocGet (m : List (Str × ParsedError)) (k : Str) : Option ParsedError :=
  match m with
  | [] => none
  | (k2, v) :: rest => if k2 = k then some v else assocGet rest k

/-- Update the entry with the given key in place (no-op when absent). -/
def assocUpdate (m : List (Str × ParsedError)) (k : Str)
    (f : ParsedError → ParsedError) : List (Str × ParsedError) :=
  match m with
  | [] => []
  | (k2, v) :: rest =>
      if k2 = k then (k2, f v) :: rest else (k2, v) :: assocUpdate rest k f

/-- Separator appended between merged occurrences (`"\n\n---\n\n"`). -/
def traceSep : Str := strL ("\n\n---\n\n")

/-- Character-by-character walk of `str::lines()`; `cur` is the current
line accumulated in reverse. -/
def rustLinesWalk (cur : Str) : Str → List Str
  | [] => if cur.isEmpty then [] else [cur.reverse]
  | c :: rest =>
      if c = '\n' then
        (if cur.head? = some '\r' then cur.tail.reverse else cur.reverse) ::
          rustLinesWalk [] rest
      else rustLinesWalk (c :: cur) rest

/-- Model of Rust `str::lines()`: split at `\n`, stripping a `\r` that precedes a
consumed `\n`; a trailing terminator produces no extra empty line (and a
lone trailing `\r` is kept). -/
def rustLines (s : Str) : List Str := rustLinesWalk [] s

/-- The per-line state of `parse_log_content`'s loop (its local mutable
variables, lib.rs 523-530). -/
structure ParseState where
  error_map : List (Str × ParsedError)
  current_stack_trace : Str
  in_stack_trace : Bool
  last_error_fingerprint : Option Str
  total_errors : Nat
  total_warnings : Nat
  total_info : Nat
deriving DecidableEq, Repr

/-- Initial loop state of `parse_log_content`. -/
def initState : ParseState := ⟨[], [], false, none, 0, 0, 0⟩

/-- The body of `parse_log_content`'s `for` loop (lib.rs 532-638). -/
def parseStep (st : ParseState) (line : Str) : ParseState :=
  let error_type := determine_error_type line
  let is_error_line :=
    (reFind NODE_ERROR_re line).isSome ||
    (reFind PYTHON_ERROR_re line).isSome ||
    (reFind JAVA_ERROR_re line).isSome ||
    genericErrorMatch line
  if is_error_line then
    let message := extract_error_message line
    let timestamp := extract_timestamp line
    let loc := extract_location_any_format line
    let tv := extract_template message
    let severity := determine_severity error_type message
    let fingerprint := generate_fingerprint tv.1 loc.1 loc.2.1
    let counts : Nat × Nat × Nat :=
      match error_type with
      | .Error => (st.total_errors + 1, st.total_warnings, st.total_info)
      | .Warning => (st.total_errors, st.total_warnings + 1, st.total_info)
      | .Info => (st.total_errors, st.total_warnings, st.total_info + 1)
    let error_map :=
      match assocGet st.error_map fingerprint with
      | some _ =>
          assocUpdate st.error_map fingerprint fun existing =>
            { existing with
              occurrences := existing.occurrences + 1,
              «variables» := existing.«variables» ++ tv.2,
              full_trace := existing.full_trace ++ traceSep ++ line }
      | none =>
          st.error_map ++ [(fingerprint,
            { id := st.error_map.length,
              error_type := error_type, severity := severity,
              message := message, template := tv.1,
              «variables» := tv.2, full_trace := line,
              file := loc.1, line := loc.2.1, column := loc.2.2,
              occurrences := 1, timestamp := timestamp,
              fingerprint := fingerprint })]
    { error_map := error_map,
      current_stack_trace := [],
      in_stack_trace := true,
      last_error_fingerprint := some fingerprint,
      total_errors := counts.1,
      total_warnings := counts.2.1,
      total_info := counts.2.2 }
  else if st.in_stack_trace && is_stack_trace_line line then
    let error_map :=
      match st.last_error_fingerprint with
      | some fp =>
          assocUpdate st.error_map fp fun e =>
            let e1 := { e with full_trace := e.full_trace ++ '\n' :: line }
            if e1.file = none then
              let loc := extract_location_any_format line
              if loc.1.isSome then
                { e1 with file := loc.1, line := loc.2.1, column := loc.2.2 }
              else e1
            else e1
      | none => st.error_map
    { st with
      current_stack_trace := st.current_stack_trace ++ '\n' :: line,
      error_map := error_map }
  else if st.in_stack_trace && (reMatchAt CAUSED_BY_re line).isSome then
    let error_map :=
      match st.last_error_fingerprint with
      | some fp =>
          assocUpdate st.error_map fp fun e =>
            { e with full_trace := e.full_trace ++ '\n' :: line }
      | none => st.error_map
    { st with error_map := error_map }
  else if !(trimList line).isEmpty then
    if genericWarnMatch line then
      { st with total_warnings := st.total_warnings + 1,
                in_stack_trace := false }
    else if genericInfoMatch line then
      { st with total_info := st.total_info + 1, in_stack_trace := false }
    else { st with in_stack_trace := false }
  else st

/-- Stable insertion keeping occurrences in descending order (an element is
placed after all existing elements with `occurrences ≥` its own). -/
def insertByOccDesc (x : ParsedError) :
    List ParsedError → List ParsedError
  | [] => [x]
  | y :: ys =>
      if x.occurrences ≤ y.occurrences then y :: insertByOccDesc x ys
      else x :: y :: ys

/-- Stable sort by occurrences descending; extensionally equal to the
stable `errors.sort_by(|a, b| b.occurrences.cmp(&a.occurrences))` of the
source (stable sorts with the same key agree). -/
def sortByOccDesc (l : List ParsedError) : List ParsedError :=
  l.foldl (fun acc x => insertByOccDesc x acc) []

/-- Source `parse_log_content` (lib.rs 519-659); the dedup `HashMap` is modelled
with insertion-order iteration. -/
def parse_log_content (content : Str) : ParseResult :=
  let lines := rustLines content
  let final := lines.foldl parseStep initState
  let errors := sortByOccDesc (final.error_map.map (·.2))
  let unique_errors := errors.length
  { summary :=
      { total_lines := lines.length,
        total_errors := final.total_errors,
        total_warnings := final.total_warnings,
        total_info := final.total_info,
        unique_errors := unique_errors },
    errors := errors.take 20 }

/-- Source `struct LogParser` (lib.rs 668-679). -/
structure LogParser where
  error_map : List (Str × ParsedError)
  total_lines : Nat
  total_errors : Nat
  total_warnings : Nat
  total_info : Nat
  in_stack_trace : Bool
  last_error_fingerprint : Option Str
  current_stack_trace : Str
deriving DecidableEq, Repr

/-- Source `LogParser::new` (lib.rs 685-696). -/
def LogParser.new : LogParser := ⟨[], 0, 0, 0, 0, false, none, []⟩

/-- Source `LogParser::process_line` (lib.rs 701-805). -/
def LogParser.process_line (self : LogParser) (line : Str) : LogParser :=
  let self := { self with total_lines := self.total_lines + 1 }
  let error_type := determine_error_type line
  let is_error_line :=
    (reFind NODE_ERROR_re line).isSome ||
    (reFind PYTHON_ERROR_re line).isSome ||
    (reFind JAVA_ERROR_re line).isSome ||
    genericErrorMatch line
  if is_error_line then
    let message := extract_error_message line
    let timestamp := extract_timestamp line
    let loc := extract_location_any_format line
    let tv := extract_template message
    let severity := determine_severity error_type message
    let fingerprint := generate_fingerprint tv.1 loc.1 loc.2.1
    let counts : Nat × Nat × Nat :=
      match error_type with
      | .Error => (self.total_errors + 1, self.total_warnings,
                   self.total_info)
      | .Warning => (self.total_errors, self.total_warnings + 1,
                     self.total_info)
      | .Info => (self.total_errors, self.total_warnings,
                  self.total_info + 1)
    let error_map :=
      match assocGet self.error_map fingerprint with
      | some _ =>
          assocUpdate self.error_map fingerprint fun existing =>
            { existing with
              occurrences := existing.occurrences + 1,
              «variables» := existing.«variables» ++ tv.2,
              full_trace := existing.full_trace ++ traceSep ++ line }
      | none =>
          self.error_map ++ [(fingerprint,
            { id := self.error_map.length,
              error_type := error_type, severity := severity,
              message := message, template := tv.1,
              «variables» := tv.2, full_trace := line,
              file := loc.1, line := loc.2.1, column := loc.2.2,
              occurrences := 1, timestamp := timestamp,
              fingerprint := fingerprint })]
    { self with
      error_map := error_map,
      current_stack_trace := [],
      in_stack_trace := true,
      last_error_fingerprint := some fingerprint,
      total_errors := counts.1,
      total_warnings := counts.2.1,
      total_info := counts.2.2 }
  else if self.in_stack_trace && is_stack_trace_line line then
    let error_map :=
      match self.last_error_fingerprint with
      | some fp =>
          assocUpdate self.error_map fp fun e =>
            let e1 := { e with full_trace := e.full_trace ++ '\n' :: line }
            if e1.file = none then
              let loc := extract_location_any_format line
              if loc.1.isSome then
                { e1 with file := loc.1, line := loc.2.1, column := loc.2.2 }
              else e1
            else e1
      | none => self.error_map
    { self with
      current_stack_trace := self.current_stack_trace ++ '\n' :: line,
      error_map := error_map }
  else if self.in_stack_trace && (reMatchAt CAUSED_BY_re line).isSome then
    let error_map :=
      match self.last_error_fingerprint with
      | some fp =>
          assocUpdate self.error_map fp fun e =>
            { e with full_trace := e.full_trace ++ '\n' :: line }
      | none => self.error_map
    { self with error_map := error_map }
  else if !(trimList line).isEmpty then
    if genericWarnMatch line then
      { self with total_warnings := self.total_warnings + 1,
                  in_stack_trace := false }
    else if genericInfoMatch line then
      { self with total_info := self.total_info + 1,
                  in_stack_trace := false }
    else { self with in_stack_trace := false }
  else self

/-- Source `LogParser::get_result` (lib.rs 810-832); the serde/wasm marshalling
boundary is out of scope, so the result is returned directly. -/
def LogParser.get_result (self : LogParser) : ParseResult :=
  let errors := sortByOccDesc (self.error_map.map (·.2))
  let unique_errors := errors.length
  { summary :=
      { total_lines := self.total_lines,
        total_errors := self.total_errors,
        total_warnings := self.total_warnings,
        total_info := self.total_info,
        unique_errors := unique_errors },
    errors := errors.take 20 }

/-!
## Pattern learning (pattern_learning.rs)
-/

/-- Source `struct DetectedPattern` (pattern_learning.rs 8-15); `f32` confidence
is modelled by exact rational arithmetic. -/
structure DetectedPattern where
  template : Str
  regex : Str
  confidence : Rat
  variable_segments : List Str
  common_parts : List Str
deriving DecidableEq, Repr

/-- Source `lcs_two_strings` (pattern_learning.rs 22-60), phrased on reversed
strings: the DP traceback walks from the ends of both strings, taking the
equal-character diagonal when last characters agree and otherwise moving
towards the side with the strictly longer prefix-LCS (ties go to the
second string), exactly as the `dp[i-1][j] > dp[i][j-1]` test does. -/
def lcsRev (a b : Str) : Str :=
  match a, b with
  | [], _ => []
  | _ :: _, [] => []
  | x :: xs, y :: ys =>
      if x = y then x :: lcsRev xs ys
      else
        let l1 := lcsRev xs (y :: ys)
        let l2 := lcsRev (x :: xs) ys
        if l2.length < l1.length then l1 else l2

/-- Source `lcs_two_strings`: DP table plus traceback. -/
def lcs_two_strings (a b : Str) : Str := (lcsRev a.reverse b.reverse).reverse

/-- The fold inside `compute_multi_lcs` with its early `break` when the
running LCS drops below 5 characters (pattern_learning.rs 74-81). -/
def multiLcsFold (acc : Str) : List Str → Str
  | [] => acc
  | s :: rest =>
      let r := lcs_two_strings acc s
      if r.length < 5 then r else multiLcsFold r rest

/-- Source `compute_multi_lcs` (pattern_learning.rs 63-84). -/
def compute_multi_lcs (strings : List Str) : Str :=
  match strings with
  | [] => []
  | [s] => s
  | s :: rest => multiLcsFold s rest

/-- Source `levenshtein_distance` (pattern_learning.rs 91-127): the recurrence
computed by the DP table (`dp[i][j] = min(dp[i-1][j]+1, dp[i][j-1]+1,
dp[i-1][j-1]+cost)` with `dp[i][0] = i`, `dp[0][j] = j`). -/
def levF : Nat → Str → Str → Nat
  | _, [], b => b.length
  | _, a@(_ :: _), [] => a.length
  | 0, _ :: _, _ :: _ => 0
  | fuel + 1, x :: xs, y :: ys =>
      let cost := if x = y then 0 else 1
      min (min (levF fuel xs (y :: ys) + 1)
               (levF fuel (x :: xs) ys + 1))
          (levF fuel xs ys + cost)

/-- Wrapper: each step of the recurrence shortens the combined length by at
least one, so `a.length + b.length` fuel always suffices and the zero-fuel
case is unreachable. -/
def levenshtein_distance (a b : Str) : Nat :=
  levF (a.length + b.length) a b

/-- Source `similarity_score` (pattern_learning.rs 130-139). -/
def similarity_score (a b : Str) : Rat :=
  let distance := levenshtein_distance a b
  let max_len := max a.length b.length
  if max_len = 0 then 1
  else 1 - (distance : Rat) / (max_len : Rat)

/-- Model of Rust `String` ordering used by `Vec::sort` (byte-lexicographic, which
on UTF-8 agrees with scalar-value lexicographic order). -/
def lexLe (a b : Str) : Bool :=
  match a, b with
  | [], _ => true
  | _ :: _, [] => false
  | x :: xs, y :: ys => if x = y then lexLe xs ys else decide (x < y)

/-- Stable insertion for `Vec::sort` (ascending by `lexLe`). -/
def insertLex (x : Str) : List Str → List Str
  | [] => [x]
  | y :: ys => if lexLe y x then y :: insertLex x ys else x :: y :: ys

/-- Source `unique_examples.sort()` (stable; equal keys are equal strings here). -/
def sortLex (l : List Str) : List Str :=
  l.foldl (fun acc x => insertLex x acc) []

/-- Source `Vec::dedup`: remove consecutive duplicates. -/
def dedupAdj (l : List Str) : List Str :=
  match l with
  | [] => []
  | [x] => [x]
  | x :: y :: rest =>
      if x = y then dedupAdj (y :: rest) else x :: dedupAdj (y :: rest)

/-- Placeholder `{VAR}`. -/
def varPH : Str := strL ("\x7bVAR\x7d")

/-- The doubled placeholder `{VAR}{VAR}`. -/
def varvarPH : Str := strL ("\x7bVAR\x7d\x7bVAR\x7d")

/-- The walk inside `build_template_from_lcs` (pattern_learning.rs
212-227): characters consumed by the LCS are kept, any skipped run is
collapsed into one `{VAR}`. -/
def btWalk (lcs ex : Str) (in_variable : Bool) : Str :=
  match ex with
  | [] => if in_variable then varPH else []
  | ch :: rest =>
      match lcs with
      | l :: ls =>
          if ch = l then
            (if in_variable then varPH else []) ++ ch :: btWalk ls rest false
          else btWalk (l :: ls) rest true
      | [] => btWalk [] rest true

theorem startsWithL_nil {pat : Str} (h : startsWithL pat [] = true) :
    pat = [] := by
  cases pat with
  | nil => rfl
  | cons p ps => simp [startsWithL] at h

theorem listReplaceF_length_le :
    ∀ (fuel : Nat) (s pat rep : Str), rep.length ≤ pat.length →
      (listReplaceF fuel s pat rep).length ≤ s.length := by
  intro fuel
  induction fuel with
  | zero => intro s pat rep _; simp [listReplaceF]
  | succ n ih =>
      intro s pat rep hrep
      match s with
      | [] => simp [listReplaceF]
      | c :: rest =>
          rw [listReplaceF]
          split
          · rename_i h
            have hple := startsWithL_length h.2
            have := ih ((c :: rest).drop pat.length) pat rep hrep
            simp only [List.length_append, List.length_drop,
              List.length_cons] at *
            omega
          · have := ih rest pat rep hrep
            simp only [List.length_cons]
            omega

theorem listReplace_length_le (s pat rep : Str)
    (h : rep.length ≤ pat.length) :
    (listReplace s pat rep).length ≤ s.length :=
  listReplaceF_length_le s.length s pat rep h

theorem listReplaceF_length_lt :
    ∀ (fuel : Nat) (s pat rep : Str), s.length ≤ fuel →
      rep.length < pat.length → containsSub pat s = true →
      (listReplaceF fuel s pat rep).length < s.length := by
  intro fuel
  induction fuel with
  | zero =>
      intro s pat rep hn hrep hc
      have : s = [] := List.length_eq_zero.mp (Nat.le_zero.mp hn)
      subst this
      have := startsWithL_nil (by simpa [containsSub] using hc)
      subst this
      simp at hrep
  | succ n ih =>
      intro s pat rep hn hrep hc
      match s with
      | [] =>
          have := startsWithL_nil (by simpa [containsSub] using hc)
          subst this
          simp at hrep
      | c :: rest =>
          rw [listReplaceF]
          split
          · rename_i h
            have hple := startsWithL_length h.2
            have hle := listReplaceF_length_le n
              ((c :: rest).drop pat.length) pat rep (Nat.le_of_lt hrep)
            simp only [List.length_append, List.length_drop,
              List.length_cons] at *
            omega
          · rename_i h
            have hpne : pat ≠ [] := by
              intro he
              rw [he] at hrep
              simp at hrep
            have hsw : startsWithL pat (c :: rest) = false := by
              by_cases hsw2 : startsWithL pat (c :: rest) = true
              · exact absurd ⟨hpne, hsw2⟩ h
              · simpa using hsw2
            have hcrest : containsSub pat rest = true := by
              simp only [containsSub, Bool.or_eq_true] at hc
              rcases hc with hc | hc
              · rw [hsw] at hc; exact absurd hc (by simp)
              · exact hc
            have hrest : rest.length ≤ n := by
              simp only [List.length_cons] at hn; omega
            have := ih rest pat rep hrest hrep hcrest
            simp only [List.length_cons]
            omega

theorem listReplace_length_lt (s pat rep : Str)
    (hrep : rep.length < pat.length) (hc : containsSub pat s = true) :
    (listReplace s pat rep).length < s.length :=
  listReplaceF_length_lt s.length s pat rep (Nat.le_refl _) hrep hc

/-- The cleanup loop of `build_template_from_lcs` (pattern_learning.rs
230-232): replace `{VAR}{VAR}` by `{VAR}` until none remains. -/
def collapseVarsF (fuel : Nat) (s : Str) : Str :=
  match fuel with
  | 0 => s
  | fuel + 1 =>
      if containsSub varvarPH s = true then
        collapseVarsF fuel (listReplace s varvarPH varPH)
      else s

/-- Wrapper: every executed replacement strictly shortens the string
(`listReplace_length_lt`), so `s.length` fuel always suffices. -/
def collapseVars (s : Str) : Str := collapseVarsF s.length s

/-- Source `build_template_from_lcs` (pattern_learning.rs 198-235). -/
def build_template_from_lcs (lcs ex : Str) : Str :=
  if lcs.isEmpty then varPH
  else collapseVars (btWalk lcs ex false)

/-- The per-example segment walk of `extract_variable_segments`
(pattern_learning.rs 243-262). -/
def segWalk (lcs ex current : Str) : List Str :=
  match ex with
  | [] => if current.isEmpty then [] else [current]
  | ch :: rest =>
      match lcs with
      | l :: ls =>
          if ch = l then
            if current.isEmpty then segWalk ls rest []
            else current :: segWalk ls rest []
          else segWalk (l :: ls) rest (current ++ [ch])
      | [] => segWalk [] rest (current ++ [ch])

/-- Source `extract_variable_segments` (pattern_learning.rs 238-268). -/
def extract_variable_segments (examples : List Str) (lcs : Str) :
    List Str :=
  dedupAdj (sortLex (examples.foldl
    (fun acc ex => acc ++ segWalk lcs ex []) []))

/-- Source `regex_syntax` meta characters escaped by `regex::escape`. -/
def isMetaChar (c : Char) : Bool :=
  c = '\\' || c = '.' || c = '+' || c = '*' || c = '?' || c = '(' ||
  c = ')' || c = '|' || c = '[' || c = ']' || c = '\x7b' || c = '\x7d' ||
  c = '^' || c = '$' || c = '#' || c = '&' || c = '-' || c = '~'

/-- Source `regex::escape`. -/
def regexEscape (s : Str) : Str :=
  s.flatMap fun c => if isMetaChar c then ['\\', c] else [c]

/-- Source `build_regex_from_template` (pattern_learning.rs 271-281). -/
def build_regex_from_template (template : Str) : Str :=
  let r := regexEscape template
  let r := listReplace r (strL ("\\\x7bVAR\\\x7d")) (strL (".*?"))
  '^' :: r ++ ['$']

/-- Source `str::split_whitespace` walk. -/
def splitWsWalk (cur : Str) : Str → List Str
  | [] => if cur.isEmpty then [] else [cur.reverse]
  | c :: rest =>
      if isWsChar c then
        if cur.isEmpty then splitWsWalk [] rest
        else cur.reverse :: splitWsWalk [] rest
      else splitWsWalk (c :: cur) rest

/-- Source `split_by_lcs` (pattern_learning.rs 284-289). -/
def split_by_lcs (lcs : Str) : List Str :=
  (splitWsWalk [] lcs).filter (fun s => !s.isEmpty)

/-- The `i < j` similarity pairs of `calculate_confidence`
(pattern_learning.rs 305-310). -/
def pairSims : List Str → List Rat
  | [] => []
  | x :: rest => rest.map (similarity_score x) ++ pairSims rest

/-- Source `calculate_confidence` (pattern_learning.rs 292-330). -/
def calculate_confidence (examples : List Str) (lcs : Str) : Rat :=
  if examples.isEmpty || lcs.isEmpty then 0
  else
    let avg_length : Rat :=
      ((examples.map List.length).sum : Nat) / (examples.length : Rat)
    let lcs_coverage : Rat := (lcs.length : Rat) / avg_length
    let sims := pairSims examples
    let avg_similarity : Rat :=
      if 0 < sims.length then sims.sum / (sims.length : Rat) else 0
    let length_penalty : Rat := if lcs.length < 5 then 1 / 2 else 1
    let confidence :=
      (lcs_coverage * (1 / 2) + avg_similarity * (1 / 2)) * length_penalty
    max (min confidence 1) 0

/-- Source `detect_pattern_lcs` (pattern_learning.rs 146-195). -/
def detect_pattern_lcs (examples : List Str) : Option DetectedPattern :=
  if examples.length < 2 then none
  else
    let unique_examples := dedupAdj (sortLex examples)
    if unique_examples.length < 2 then none
    else
      let lcs := compute_multi_lcs unique_examples
      let avg_len :=
        (unique_examples.map List.length).sum / unique_examples.length
      if lcs.length < max (avg_len / 10) 3 then none
      else
        let confidence := calculate_confidence unique_examples lcs
        if confidence < 1 / 2 then none
        else
          some { template :=
                   build_template_from_lcs lcs (unique_examples.headD []),
                 regex := build_regex_from_template
                   (build_template_from_lcs lcs (unique_examples.headD [])),
                 confidence := confidence,
                 variable_segments :=
                   extract_variable_segments unique_examples lcs,
                 common_parts := split_by_lcs lcs }

/-- The inner loop of `cluster_by_similarity` (pattern_learning.rs
343-352): join the first cluster whose representative (first member) is at
least `threshold`-similar. -/
def tryJoinCluster (error : Str) (threshold : Rat) :
    List (List Str) → Option (List (List Str))
  | [] => none
  | cluster :: rest =>
      if threshold ≤ similarity_score error (cluster.headD []) then
        some ((cluster ++ [error]) :: rest)
      else (tryJoinCluster error threshold rest).map (cluster :: ·)

/-- Source `cluster_by_similarity` (pattern_learning.rs 337-360). -/
def cluster_by_similarity (errors : List Str) (threshold : Rat) :
    List (List Str) :=
  errors.foldl
    (fun clusters error =>
      match tryJoinCluster error threshold clusters with
      | some cs => cs
      | none => clusters ++ [[error]])
    []

/-- Claim-side decidable predicate: an IPv4 value has exactly four
dot-separated non-empty digit groups, each of numeric value at most 255. -/
def ipShapeOk (value : Str) : Bool :=
  (splitOnSep '.' value).length = 4 &&
  (splitOnSep '.' value).all
    (fun p => !p.isEmpty && p.all isDigitChar && digitsToNat p ≤ 255)

/-- Claim-side decidable predicate: a numeric-id value is a digit run of
length at least 4. -/
def numericIdShapeOk (value : Str) : Bool :=
  4 ≤ value.length && value.all isDigitChar

/-- The incremental-mode state corresponding to a whole-document loop state
after `k` lines. -/
def lpOf (st : ParseState) (k : Nat) : LogParser :=
  ⟨st.error_map, k, st.total_errors, st.total_warnings, st.total_info,
   st.in_stack_trace, st.last_error_fingerprint, st.current_stack_trace⟩

/-!
## Proof infrastructure
-/

theorem lp_step (st : ParseState) (k : Nat) (line : Str) :
    (lpOf st k).process_line line = lpOf (parseStep st line) (k + 1) := by
  simp only [LogParser.process_line, parseStep, lpOf]
  split_ifs <;> (repeat' split) <;> rfl

theorem lp_foldl (lines : List Str) : ∀ (st : ParseState) (k : Nat),
    List.foldl LogParser.process_line (lpOf st k) lines =
      lpOf (List.foldl parseStep st lines) (k + lines.length) := by
  induction lines with
  | nil => intro st k; simp
  | cons l ls ih =>
      intro st k
      rw [List.foldl_cons, lp_step, ih]
      congr 1
      simp only [List.length_cons]
      omega

theorem mem_insertByOccDesc {x b : ParsedError} :
    ∀ {l : List ParsedError}, b ∈ insertByOccDesc x l ↔ b = x ∨ b ∈ l := by
  intro l
  induction l with
  | nil => simp [insertByOccDesc]
  | cons y ys ih =>
      rw [insertByOccDesc]
      split
      · simp only [List.mem_cons, ih]
        tauto
      · simp only [List.mem_cons]

theorem sorted_insertByOccDesc {x : ParsedError} {l : List ParsedError}
    (hl : l.Sorted (fun a b => b.occurrences ≤ a.occurrences)) :
    (insertByOccDesc x l).Sorted
      (fun a b => b.occurrences ≤ a.occurrences) := by
  induction l with
  | nil => simp [insertByOccDesc]
  | cons y ys ih =>
      rw [List.sorted_cons] at hl
      obtain ⟨hy, hys⟩ := hl
      rw [insertByOccDesc]
      split
      · rename_i hxy
        rw [List.sorted_cons]
        refine ⟨?_, ih hys⟩
        intro b hb
        rcases mem_insertByOccDesc.mp hb with rfl | hb
        · exact hxy
        · exact hy b hb
      · rename_i hxy
        rw [List.sorted_cons]
        refine ⟨?_, List.sorted_cons.mpr ⟨hy, hys⟩⟩
        intro b hb
        rcases List.mem_cons.mp hb with rfl | hb
        · omega
        · have := hy b hb
          omega

theorem length_insertByOccDesc (x : ParsedError) (l : List ParsedError) :
    (insertByOccDesc x l).length = l.length + 1 := by
  induction l with
  | nil => simp [insertByOccDesc]
  | cons y ys ih =>
      rw [insertByOccDesc]
      split
      · simp [ih]
      · simp

theorem sorted_foldl_insert (l : List ParsedError) :
    ∀ acc : List ParsedError,
      acc.Sorted (fun a b => b.occurrences ≤ a.occurrences) →
      (l.foldl (fun acc x => insertByOccDesc x acc) acc).Sorted
        (fun a b => b.occurrences ≤ a.occurrences) := by
  induction l with
  | nil => intro acc h; simpa using h
  | cons x xs ih =>
      intro acc h
      rw [List.foldl_cons]
      exact ih _ (sorted_insertByOccDesc h)

theorem sorted_sortByOccDesc (l : List ParsedError) :
    (sortByOccDesc l).Sorted (fun a b => b.occurrences ≤ a.occurrences) :=
  sorted_foldl_insert l [] (by simp)

theorem length_foldl_insert (l : List ParsedError) :
    ∀ acc : List ParsedError,
      (l.foldl (fun acc x => insertByOccDesc x acc) acc).length =
        acc.length + l.length := by
  induction l with
  | nil => intro acc; simp
  | cons x xs ih =>
      intro acc
      rw [List.foldl_cons, ih, length_insertByOccDesc]
      simp only [List.length_cons]
      omega

theorem length_sortByOccDesc (l : List ParsedError) :
    (sortByOccDesc l).length = l.length := by
  have := length_foldl_insert l []
  simpa [sortByOccDesc] using this

theorem keys_assocUpdate (m : List (Str × ParsedError)) (k : Str)
    (f : ParsedError → ParsedError) :
    (assocUpdate m k f).map Prod.fst = m.map Prod.fst := by
  induction m with
  | nil => simp [assocUpdate]
  | cons p rest ih =>
      rw [assocUpdate]
      split
      · simp
      · simp [ih]

theorem assocGet_eq_none {m : List (Str × ParsedError)} {k : Str}
    (h : assocGet m k = none) : k ∉ m.map Prod.fst := by
  induction m with
  | nil => simp
  | cons p rest ih =>
      rw [assocGet] at h
      split at h
      · exact absurd h (by simp)
      · rename_i hne
        simp only [List.map_cons, List.mem_cons]
        intro hc
        rcases hc with hc | hc
        · exact hne hc.symm
        · exact ih h hc

set_option maxHeartbeats 1000000 in
theorem nodup_keys_parseStep (st : ParseState) (line : Str)
    (h : (st.error_map.map Prod.fst).Nodup) :
    ((parseStep st line).error_map.map Prod.fst).Nodup := by
  simp only [parseStep]
  split
  · -- error-line branch
    dsimp only
    split
    · rw [keys_assocUpdate]
      exact h
    · rename_i hget
      rw [List.map_append]
      refine List.Nodup.append h (by simp) ?_
      intro a ha hb
      simp only [List.map_cons, List.map_nil, List.mem_singleton] at hb
      subst hb
      exact assocGet_eq_none hget ha
  · split
    · -- stack-trace continuation branch
      dsimp only
      split
      · rw [keys_assocUpdate]
        exact h
      · exact h
    · split
      · -- caused-by branch
        dsimp only
        split
        · rw [keys_assocUpdate]
          exact h
        · exact h
      · split
        · -- non-empty line branch (warn/info tallies)
          split
          · exact h
          · split
            · exact h
            · exact h
        · -- blank line
          exact h

theorem nodup_keys_foldl (lines : List Str) :
    ∀ st : ParseState, (st.error_map.map Prod.fst).Nodup →
      (((lines.foldl parseStep st).error_map).map Prod.fst).Nodup := by
  induction lines with
  | nil => intro st h; simpa using h
  | cons l ls ih =>
      intro st h
      rw [List.foldl_cons]
      exact ih _ (nodup_keys_parseStep st l h)

set_option maxHeartbeats 1000000 in
theorem counters_parseStep (st : ParseState) (line : Str) :
    (parseStep st line).total_errors + (parseStep st line).total_warnings +
      (parseStep st line).total_info ≤
    st.total_errors + st.total_warnings + st.total_info + 1 := by
  simp only [parseStep]
  split
  · -- error-line branch: exactly one counter is incremented
    dsimp only
    split <;> (dsimp only; omega)
  · split
    · dsimp only
      omega
    · split
      · dsimp only
        omega
      · split
        · split
          · dsimp only
            omega
          · split
            · dsimp only
              omega
            · dsimp only
              omega
        · omega

theorem counters_foldl (lines : List Str) :
    ∀ st : ParseState,
      (lines.foldl parseStep st).total_errors +
        (lines.foldl parseStep st).total_warnings +
        (lines.foldl parseStep st).total_info ≤
      st.total_errors + st.total_warnings + st.total_info + lines.length := by
  induction lines with
  | nil => intro st; simp
  | cons l ls ih =>
      intro st
      rw [List.foldl_cons]
      have h1 := ih (parseStep st l)
      have h2 := counters_parseStep st l
      simp only [List.length_cons]
      omega

theorem mem_scanBMF {tryAt : Str → Option Str} {P : Str → Prop}
    (htry : ∀ s m, tryAt s = some m → P m) :
    ∀ (fuel : Nat) (pw : Bool) (s : Str) (m : Str),
      m ∈ scanBMF tryAt fuel pw s → P m := by
  intro fuel
  induction fuel with
  | zero => intro pw s m hm; simp [scanBMF] at hm
  | succ n ih =>
      intro pw s m hm
      match s with
      | [] => simp [scanBMF] at hm
      | c :: rest =>
          rw [scanBMF] at hm
          split at hm
          · exact ih _ _ _ hm
          · split at hm
            · rename_i m2 htr
              rcases List.mem_cons.mp hm with rfl | hm
              · exact htry _ _ htr
              · exact ih _ _ _ hm
            · exact ih _ _ _ hm

theorem tryNumericId_shape {s m : Str} (h : tryNumericId s = some m) :
    numericIdShapeOk m = true := by
  simp only [tryNumericId] at h
  split_ifs at h with hc
  obtain rfl := Option.some.inj h
  simp only [numericIdShapeOk, Bool.and_eq_true, decide_eq_true_eq,
    List.all_eq_true]
  exact ⟨hc.1, fun c hc2 => List.mem_takeWhile_imp hc2⟩

theorem ipGroupDot_digits {s d : Str} (h : ipGroupDot s = some d) :
    d = s.takeWhile isDigitChar := by
  simp only [ipGroupDot] at h
  split_ifs at h with hc
  split at h
  · exact (Option.some.inj h).symm
  · cases h

theorem tryIp_chars {s m : Str} (h : tryIp s = some m) :
    ∀ c ∈ m, isDigitChar c = true ∨ c = '.' := by
  simp only [tryIp] at h
  cases hEq1 : ipGroupDot s with
  | none => rw [hEq1] at h; simp at h
  | some d1 =>
  rw [hEq1] at h
  dsimp only at h
  cases hEq2 : ipGroupDot (s.drop (d1.length + 1)) with
  | none => rw [hEq2] at h; simp at h
  | some d2 =>
  rw [hEq2] at h
  dsimp only at h
  cases hEq3 : ipGroupDot ((s.drop (d1.length + 1)).drop (d2.length + 1))
    with
  | none => rw [hEq3] at h; simp at h
  | some d3 =>
  rw [hEq3] at h
  dsimp only at h
  split_ifs at h with hc
  obtain rfl := Option.some.inj h
  intro c hc2
  have h1 := ipGroupDot_digits hEq1
  have h2 := ipGroupDot_digits hEq2
  have h3 := ipGroupDot_digits hEq3
  rcases List.mem_append.mp hc2 with hm | hm
  · rcases List.mem_append.mp hm with hm | hm
    · rcases List.mem_append.mp hm with hm | hm
      · exact Or.inl (by subst h1; exact List.mem_takeWhile_imp hm)
      · rcases List.mem_cons.mp hm with rfl | hm
        · exact Or.inr rfl
        · exact Or.inl (by subst h2; exact List.mem_takeWhile_imp hm)
    · rcases List.mem_cons.mp hm with rfl | hm
      · exact Or.inr rfl
      · exact Or.inl (by subst h3; exact List.mem_takeWhile_imp hm)
  · rcases List.mem_cons.mp hm with rfl | hm
    · exact Or.inr rfl
    · exact Or.inl (List.mem_takeWhile_imp hm)

theorem splitOnSep_chars (sep : Char) (s : Str) :
    ∀ p ∈ splitOnSep sep s, ∀ c ∈ p, c ∈ s ∧ c ≠ sep := by
  induction s with
  | nil =>
      intro p hp c hc
      simp only [splitOnSep, List.mem_singleton] at hp
      subst hp
      simp at hc
  | cons a rest ih =>
      intro p hp c hc
      rw [splitOnSep] at hp
      split at hp
      · rename_i ha
        rcases List.mem_cons.mp hp with rfl | hp
        · simp at hc
        · have := ih p hp c hc
          exact ⟨List.mem_cons_of_mem _ this.1, this.2⟩
      · rename_i ha
        split at hp
        · rename_i heq
          rcases List.mem_cons.mp hp with rfl | hp
          · simp only [List.mem_singleton] at hc
            subst hc
            exact ⟨List.mem_cons_self _ _, ha⟩
          · simp at hp
        · rename_i g gs heq
          rcases List.mem_cons.mp hp with rfl | hp
          · rcases List.mem_cons.mp hc with rfl | hc2
            · exact ⟨List.mem_cons_self _ _, ha⟩
            · have hg : g ∈ splitOnSep sep rest := by
                rw [heq]
                exact List.mem_cons_self _ _
              have := ih g hg c hc2
              exact ⟨List.mem_cons_of_mem _ this.1, this.2⟩
          · have hpmem : p ∈ splitOnSep sep rest := by
              rw [heq]
              exact List.mem_cons_of_mem _ hp
            have := ih p hpmem c hc
            exact ⟨List.mem_cons_of_mem _ this.1, this.2⟩

theorem ipShapeOk_of_valid {m : Str}
    (hvalid : is_valid_ip m = true)
    (hchars : ∀ c ∈ m, isDigitChar c = true ∨ c = '.') :
    ipShapeOk m = true := by
  simp only [is_valid_ip, Bool.and_eq_true, List.all_eq_true,
    decide_eq_true_eq] at hvalid
  obtain ⟨hlen, hall⟩ := hvalid
  simp only [ipShapeOk, Bool.and_eq_true, List.all_eq_true,
    decide_eq_true_eq]
  refine ⟨hlen, ?_⟩
  intro p hp
  have hpd : ∀ c ∈ p, isDigitChar c = true := by
    intro c hc
    have hcm := splitOnSep_chars '.' m p hp c hc
    rcases hchars c hcm.1 with hd | hd
    · exact hd
    · exact absurd hd hcm.2
  have hspec := hall p hp
  have hplusfree : ¬p.head? = some '+' := by
    match p with
    | [] => simp
    | c :: cs =>
        have hcdig := hpd c (List.mem_cons_self _ _)
        simp only [List.head?_cons, Option.some.injEq]
        intro hEq
        rw [hEq] at hcdig
        exact absurd hcdig (by decide)
  rw [show parseU32 p =
      (if p ≠ [] ∧ p.all isDigitChar = true then
        (if digitsToNat p < 2 ^ 32 then some (digitsToNat p) else none)
      else none) by
    simp only [parseU32]
    rw [if_neg hplusfree]] at hspec
  split_ifs at hspec with h1 h2
  simp only [decide_eq_true_eq] at hspec
  refine ⟨⟨?_, fun c hc => hpd c hc⟩, hspec⟩
  simp only [Bool.not_eq_true']
  rw [List.isEmpty_eq_false]
  exact h1.1

theorem uuidPass_mem (ms : List Str) :
    ∀ (acc : Str × List Variable) (v : Variable),
      v ∈ (ms.foldl
        (fun (acc : Str × List Variable) value =>
          (listReplace acc.1 value uuidPH,
           acc.2 ++ [⟨uuidPH, value, .Uuid⟩])) acc).2 →
      v ∈ acc.2 ∨ ∃ m ∈ ms, v = ⟨uuidPH, m, .Uuid⟩ := by
  induction ms with
  | nil => intro acc v hv; exact Or.inl hv
  | cons mv ms ih =>
      intro acc v hv
      rw [List.foldl_cons] at hv
      rcases ih _ v hv with hIn | ⟨m2, hm2, rfl⟩
      · rcases List.mem_append.mp hIn with hIn | hIn
        · exact Or.inl hIn
        · simp only [List.mem_singleton] at hIn
          subst hIn
          exact Or.inr ⟨mv, List.mem_cons_self _ _, rfl⟩
      · exact Or.inr ⟨m2, List.mem_cons_of_mem _ hm2, rfl⟩

theorem ipPass_mem (ms : List Str) :
    ∀ (acc : Str × List Variable) (v : Variable),
      v ∈ (ms.foldl
        (fun (acc : Str × List Variable) value =>
          if is_valid_ip value then
            (listReplace acc.1 value ipPH,
             acc.2 ++ [⟨ipPH, value, .IpAddress⟩])
          else acc) acc).2 →
      v ∈ acc.2 ∨
        ∃ m ∈ ms, is_valid_ip m = true ∧ v = ⟨ipPH, m, .IpAddress⟩ := by
  induction ms with
  | nil => intro acc v hv; exact Or.inl hv
  | cons mv ms ih =>
      intro acc v hv
      rw [List.foldl_cons] at hv
      rcases ih _ v hv with hIn | ⟨m2, hm2, hvalid, rfl⟩
      · split_ifs at hIn with hval
        · rcases List.mem_append.mp hIn with hIn | hIn
          · exact Or.inl hIn
          · simp only [List.mem_singleton] at hIn
            subst hIn
            exact Or.inr ⟨mv, List.mem_cons_self _ _, hval, rfl⟩
        · exact Or.inl hIn
      · exact Or.inr ⟨m2, List.mem_cons_of_mem _ hm2, hvalid, rfl⟩

theorem numericPass_mem (ms : List Str) :
    ∀ (acc : Str × List Variable) (v : Variable),
      v ∈ (ms.foldl
        (fun (acc : Str × List Variable) value =>
          (listReplace acc.1 value idPH,
           acc.2 ++ [⟨idPH, value, .NumericId⟩])) acc).2 →
      v ∈ acc.2 ∨ ∃ m ∈ ms, v = ⟨idPH, m, .NumericId⟩ := by
  induction ms with
  | nil => intro acc v hv; exact Or.inl hv
  | cons mv ms ih =>
      intro acc v hv
      rw [List.foldl_cons] at hv
      rcases ih _ v hv with hIn | ⟨m2, hm2, rfl⟩
      · rcases List.mem_append.mp hIn with hIn | hIn
        · exact Or.inl hIn
        · simp only [List.mem_singleton] at hIn
          subst hIn
          exact Or.inr ⟨mv, List.mem_cons_self _ _, rfl⟩
      · exact Or.inr ⟨m2, List.mem_cons_of_mem _ hm2, rfl⟩

/-- Every variable recorded by `extract_template` comes from one of the
three passes, with the matched text as its value. -/
theorem extract_template_vars (message : Str) (v : Variable)
    (hv : v ∈ (extract_template message).2) :
    (∃ m ∈ scanUuid message, v = ⟨uuidPH, m, .Uuid⟩) ∨
    (∃ m ∈ scanIp message,
      is_valid_ip m = true ∧ v = ⟨ipPH, m, .IpAddress⟩) ∨
    (∃ m ∈ scanNumericId message, v = ⟨idPH, m, .NumericId⟩) := by
  simp only [extract_template] at hv
  rcases numericPass_mem _ _ _ hv with hv | hnum
  · rcases ipPass_mem _ _ _ hv with hv | hip
    · rcases uuidPass_mem _ _ _ hv with hv | huuid
      · simp at hv
      · exact Or.inl huuid
    · exact Or.inr (Or.inl hip)
  · exact Or.inr (Or.inr hnum)

/-- Every NumericId variable recorded by `extract_template` is a digit run
of length at least 4 tagged with the placeholder `{ID}`. -/
theorem extract_template_numeric_shape (message : Str) (v : Variable)
    (hv : v ∈ (extract_template message).2)
    (ht : v.var_type = VariableType.NumericId) :
    v.placeholder = idPH ∧ numericIdShapeOk v.value = true := by
  rcases extract_template_vars message v hv with
    ⟨m, _, rfl⟩ | ⟨m, _, _, rfl⟩ | ⟨m, hm, rfl⟩
  · simp at ht
  · simp at ht
  · refine ⟨rfl, ?_⟩
    exact mem_scanBMF (fun s m h => tryNumericId_shape h) _ _ _ _ hm

/-- Every IpAddress variable recorded by `extract_template` passed the
octet validation and has exactly four dot-separated digit groups, each of
value at most 255, tagged with the placeholder `{IP}`. -/
theorem extract_template_ip_shape (message : Str) (v : Variable)
    (hv : v ∈ (extract_template message).2)
    (ht : v.var_type = VariableType.IpAddress) :
    v.placeholder = ipPH ∧ ipShapeOk v.value = true := by
  rcases extract_template_vars message v hv with
    ⟨m, _, rfl⟩ | ⟨m, hm, hvalid, rfl⟩ | ⟨m, _, rfl⟩
  · simp at ht
  · refine ⟨rfl, ?_⟩
    have hchars : ∀ c ∈ m, isDigitChar c = true ∨ c = '.' :=
      mem_scanBMF (fun s m h => tryIp_chars h) _ _ _ _ hm
    exact ipShapeOk_of_valid hvalid hchars
  · simp at ht

theorem insertLex_length (x : Str) (l : List Str) :
    (insertLex x l).length = l.length + 1 := by
  induction l with
  | nil => simp [insertLex]
  | cons y ys ih =>
      rw [insertLex]
      split
      · simp [ih]
      · simp

theorem sortLex_length (l : List Str) : (sortLex l).length = l.length := by
  have haux : ∀ (l acc : List Str),
      (l.foldl (fun acc x => insertLex x acc) acc).length =
        acc.length + l.length := by
    intro l
    induction l with
    | nil => intro acc; simp
    | cons x xs ih =>
        intro acc
        rw [List.foldl_cons, ih, insertLex_length]
        simp only [List.length_cons]
        omega
  simpa [sortLex] using haux l []

theorem dedupAdj_length_le : ∀ l : List Str, (dedupAdj l).length ≤ l.length
  | [] => by simp [dedupAdj]
  | [x] => by simp [dedupAdj]
  | x :: y :: rest => by
      rw [dedupAdj]
      split
      · have := dedupAdj_length_le (y :: rest)
        simp only [List.length_cons] at *
        omega
      · have := dedupAdj_length_le (y :: rest)
        simp only [List.length_cons] at *
        omega

theorem levF_le_max :
    ∀ (fuel : Nat) (a b : Str), a.length + b.length ≤ fuel →
      levF fuel a b ≤ max a.length b.length := by
  intro fuel
  induction fuel with
  | zero =>
      intro a b h
      cases a with
      | nil => simp [levF]
      | cons x xs =>
          cases b with
          | nil => simp [levF]
          | cons y ys => simp at h
  | succ n ih =>
      intro a b h
      cases a with
      | nil => simp [levF]
      | cons x xs =>
          cases b with
          | nil => simp [levF]
          | cons y ys =>
              rw [levF]
              have h1 := ih xs (y :: ys) (by
                simp only [List.length_cons] at h ⊢; omega)
              have h2 := ih (x :: xs) ys (by
                simp only [List.length_cons] at h ⊢; omega)
              have h3 := ih xs ys (by
                simp only [List.length_cons] at h ⊢; omega)
              simp only [List.length_cons] at *
              split_ifs <;> omega

theorem similarity_nonneg (a b : Str) : 0 ≤ similarity_score a b := by
  unfold similarity_score
  dsimp only
  split_ifs with h
  · norm_num
  · have hd : levenshtein_distance a b ≤ max a.length b.length :=
      levF_le_max _ a b (Nat.le_refl _)
    have hmaxpos : 0 < max a.length b.length := Nat.pos_of_ne_zero h
    have hmax : (0 : Rat) < ((max a.length b.length : Nat) : Rat) := by
      exact_mod_cast hmaxpos
    have hcast :
        ((levenshtein_distance a b : Nat) : Rat) ≤
          ((max a.length b.length : Nat) : Rat) := by
      exact_mod_cast hd
    have hdiv :
        ((levenshtein_distance a b : Nat) : Rat) /
          ((max a.length b.length : Nat) : Rat) ≤ 1 := by
      rw [div_le_one hmax]
      exact hcast
    linarith

theorem tryJoin_zero (e : Str) (g : List Str) (gs : List (List Str)) :
    tryJoinCluster e 0 (g :: gs) = some ((g ++ [e]) :: gs) := by
  rw [tryJoinCluster, if_pos (similarity_nonneg _ _)]

theorem cluster_fold_zero (ss : List Str) :
    ∀ g : List Str,
      List.foldl
        (fun clusters error =>
          match tryJoinCluster error 0 clusters with
          | some cs => cs
          | none => clusters ++ [[error]]) [g] ss = [g ++ ss] := by
  induction ss with
  | nil => intro g; simp
  | cons s ss ih =>
      intro g
      rw [List.foldl_cons]
      simp only [tryJoin_zero]
      rw [ih (g ++ [s])]
      simp

/-!
## Claims
-/

/-- C1 (counterexample): processing exactly the two lines
`"User 12345 not found"` and `"User 67890 not found"` yields NO
`ErrorRecord` at all (neither line matches any error-detection pattern:
none of `NODE_ERROR`/`PYTHON_ERROR`/`JAVA_ERROR` applies without an
exception token and colon, and no generic level keyword occurs), refuting
the claim that they yield one record with two occurrences. -/
theorem c1_dedup_counterexample :
    (parse_log_content
      (strL ("User 12345 not found\nUser 67890 not found"))).errors = [] ∧
    (parse_log_content
      (strL ("User 12345 not found\nUser 67890 not found"))).summary.unique_errors
      = 0 := by
  decide

/-- C1 (amended): processing the two lines `"Error: User 12345 not found"`
and `"Error: User 67890 not found"` (which the error detector accepts, and
whose extracted messages are the claim's two lines) yields, in either mode,
exactly one ErrorRecord with template `"User {ID} not found"`,
`occurrences = 2`, and exactly two NumericId variables with values
`12345` and `67890`. -/
theorem c1_dedup_amended :
    (parse_log_content
      (strL ("Error: User 12345 not found\nError: User 67890 not found"))).errors.map
        (·.template) = [strL ("User \x7bID\x7d not found")] ∧
    (parse_log_content
      (strL ("Error: User 12345 not found\nError: User 67890 not found"))).errors.map
        (·.occurrences) = [2] ∧
    (parse_log_content
      (strL ("Error: User 12345 not found\nError: User 67890 not found"))).errors.map
        (·.«variables») =
      [[⟨idPH, strL ("12345"), .NumericId⟩,
        ⟨idPH, strL ("67890"), .NumericId⟩]] ∧
    (parse_log_content
      (strL ("Error: User 12345 not found\nError: User 67890 not found"))).summary.unique_errors
      = 1 ∧
    LogParser.get_result
      (List.foldl LogParser.process_line LogParser.new
        [strL ("Error: User 12345 not found"),
         strL ("Error: User 67890 not found")]) =
      parse_log_content
        (strL ("Error: User 12345 not found\nError: User 67890 not found")) := by
  decide

/-- C2 (counterexample): the line
`"2025-01-01 00:00:00 INFO an error occurred"` begins with a timestamp and
the level keyword INFO, and its free text contains the substring `error`,
yet it is classified Error (the `LOG_LEVEL_ERROR` pattern's `[^\[\]]*\s+`
gap lets the later standalone word `error` match first), refuting the
claim that such a line is classified Info. -/
theorem c2_level_counterexample :
    logLevelInfoMatch
      (strL ("2025-01-01 00:00:00 INFO an error occurred")) = true ∧
    containsSub (strL ("error"))
      (strL ("2025-01-01 00:00:00 INFO an error occurred")) = true ∧
    determine_error_type
      (strL ("2025-01-01 00:00:00 INFO an error occurred")) = .Error := by
  decide

/-- C2 (amended): for timestamp-prefixed lines the three structured-level
matchers decide the classification with category priority
ERROR/FATAL/CRITICAL over WARN/WARNING over INFO/DEBUG/TRACE, where each
matcher fires if its keyword occurs whitespace-preceded anywhere after the
timestamp before any bracket — not only at the first keyword position. -/
theorem c2_level_priority (line : Str) :
    (logLevelErrorMatch line = true →
      determine_error_type line = .Error) ∧
    (logLevelErrorMatch line = false → logLevelWarnMatch line = true →
      determine_error_type line = .Warning) ∧
    (logLevelErrorMatch line = false → logLevelWarnMatch line = false →
      logLevelInfoMatch line = true →
      determine_error_type line = .Info) := by
  refine ⟨fun h1 => ?_, fun h1 h2 => ?_, fun h1 h2 h3 => ?_⟩
  · simp [determine_error_type, h1]
  · simp [determine_error_type, h1, h2]
  · simp [determine_error_type, h1, h2, h3]

/-- Witness for C2: a concrete INFO-level line classified Info through the
third conjunct. -/
theorem c2_level_priority_witness :
    determine_error_type (strL ("2025-01-01 00:00:00 INFO starting"))
      = .Info :=
  (c2_level_priority (strL ("2025-01-01 00:00:00 INFO starting"))).2.2
    (by decide) (by decide) (by decide)

/-- C10 (counterexample): the claimed example line
`"2025-01-01 00:00:00 WARN Error: disk full"` is classified Error, not
Warning (`LOG_LEVEL_ERROR` fires on the whitespace-preceded `Error`), so
it increments `totalErrors` and produces a record classified Error. -/
theorem c10_warning_counterexample :
    determine_error_type
      (strL ("2025-01-01 00:00:00 WARN Error: disk full")) = .Error ∧
    (parse_log_content
      (strL ("2025-01-01 00:00:00 WARN Error: disk full"))).summary.total_warnings
      = 0 ∧
    (parse_log_content
      (strL ("2025-01-01 00:00:00 WARN Error: disk full"))).errors.map
        (·.error_type) = [.Error] := by
  decide

/-- C10 (amended): for the line
`"2025-01-01 00:00:00 WARN Exception: disk full"` — timestamp, WARN level,
and an exception signature whose keyword is not itself a level keyword —
the parser increments `totalWarnings` and stores a record classified
Warning, so the errors list is not restricted to records classified
Error. -/
theorem c10_warning_amended :
    determine_error_type
      (strL ("2025-01-01 00:00:00 WARN Exception: disk full")) = .Warning ∧
    (parse_log_content
      (strL ("2025-01-01 00:00:00 WARN Exception: disk full"))).summary.total_warnings
      = 1 ∧
    (parse_log_content
      (strL ("2025-01-01 00:00:00 WARN Exception: disk full"))).errors.map
        (·.error_type) = [.Warning] ∧
    (parse_log_content
      (strL ("2025-01-01 00:00:00 WARN Exception: disk full"))).errors.map
        (·.occurrences) = [1] := by
  decide

/-- C3 (counterexample): for the message
`"12345678-1234-1234-1234-123456789012"` the UUID pass matches the whole
message, yet the later numeric-id pass (which re-scans the original
message, not the template) records five NumericId variables whose values
are substrings of the matched UUID — refuting the claim that no such
variable is ever recorded. -/
theorem c3_uuid_counterexample :
    (extract_template
      (strL ("12345678-1234-1234-1234-123456789012"))).2 =
      [⟨uuidPH, strL ("12345678-1234-1234-1234-123456789012"), .Uuid⟩,
       ⟨idPH, strL ("12345678"), .NumericId⟩,
       ⟨idPH, strL ("1234"), .NumericId⟩,
       ⟨idPH, strL ("1234"), .NumericId⟩,
       ⟨idPH, strL ("1234"), .NumericId⟩,
       ⟨idPH, strL ("123456789012"), .NumericId⟩] ∧
    (strL ("12345678")) <:+:
      (strL ("12345678-1234-1234-1234-123456789012")) := by
  decide

/-- C3 (amended): substitution is applied in strict priority UUID then IPv4
then numeric-id, and a matched UUID is never split in the resulting
template (it is replaced by `{UUID}` before the later passes run, as the
concrete conjunct shows); however, the later passes scan the original
message, so NumericId variables are recorded for digit runs inside a
matched UUID.  No IPv4 octet is ever consumed as a numeric id: every
NumericId variable is a digit run of length at least 4, while an octet has
at most 3 digits. -/
theorem c3_uuid_amended :
    ((extract_template
        (strL ("12345678-1234-1234-1234-123456789012"))).1 =
        strL ("\x7bUUID\x7d") ∧
      (extract_template
        (strL ("12345678-1234-1234-1234-123456789012"))).2.head? =
        some ⟨uuidPH, strL ("12345678-1234-1234-1234-123456789012"),
          .Uuid⟩) ∧
    ∀ (message : Str) (v : Variable),
      v ∈ (extract_template message).2 →
      v.var_type = VariableType.NumericId →
      numericIdShapeOk v.value = true :=
  ⟨by decide,
   fun message v hv ht =>
     (extract_template_numeric_shape message v hv ht).2⟩

/-- Witness for C3: the numeric variable of `"User 12345 not found"` is a
digit run of length at least 4. -/
theorem c3_uuid_amended_witness :
    numericIdShapeOk (strL ("12345")) = true :=
  c3_uuid_amended.2 (strL ("User 12345 not found"))
    ⟨idPH, strL ("12345"), .NumericId⟩ (by decide) rfl

/-- C4: for every input the finalized result has at most 20 errors, sorted
by occurrences descending (stable, hence deterministic in the model's
insertion-order map iteration), and `unique_errors` equals the number of
entries of the dedup map before truncation, whose fingerprint keys are
pairwise distinct. -/
theorem c4_finalize_properties (content : Str) :
    (parse_log_content content).errors.length ≤ 20 ∧
    (parse_log_content content).errors.Sorted
      (fun a b => b.occurrences ≤ a.occurrences) ∧
    (parse_log_content content).summary.unique_errors =
      ((rustLines content).foldl parseStep initState).error_map.length ∧
    ((((rustLines content).foldl parseStep initState).error_map.map
      Prod.fst)).Nodup := by
  refine ⟨?_, ?_, ?_, ?_⟩
  · simp only [parse_log_content]
    simp [List.length_take]
  · simp only [parse_log_content]
    exact List.Pairwise.sublist (List.take_sublist _ _)
      (sorted_sortByOccDesc _)
  · simp only [parse_log_content]
    rw [length_sortByOccDesc, List.length_map]
  · exact nodup_keys_foldl _ initState (by simp [initState])

/-- C5: for every input text, each processed line increments at most one of
the three classification counters, so their sum is bounded by the number of
lines. -/
theorem c5_counters_le_lines (content : Str) :
    (parse_log_content content).summary.total_errors +
      (parse_log_content content).summary.total_warnings +
      (parse_log_content content).summary.total_info ≤
    (parse_log_content content).summary.total_lines := by
  simp only [parse_log_content]
  have := counters_foldl (rustLines content) initState
  simpa [initState] using this

/-- C6: every IpAddress variable recorded by template extraction has
exactly four dot-separated numeric groups each at most 255 (candidates
failing the octet check are rejected), tagged `{IP}`; every NumericId
variable is a digit run of length at least 4, tagged `{ID}`. -/
theorem c6_variable_shapes (message : Str) (v : Variable)
    (hv : v ∈ (extract_template message).2) :
    (v.var_type = VariableType.IpAddress →
      v.placeholder = ipPH ∧ ipShapeOk v.value = true) ∧
    (v.var_type = VariableType.NumericId →
      v.placeholder = idPH ∧ numericIdShapeOk v.value = true) :=
  ⟨fun ht => extract_template_ip_shape message v hv ht,
   fun ht => extract_template_numeric_shape message v hv ht⟩

/-- Witness for C6: the IPv4 variable extracted from
`"ip 1.2.3.4 id 9999"`. -/
theorem c6_variable_shapes_witness :
    (Variable.mk ipPH (strL ("1.2.3.4")) .IpAddress).placeholder = ipPH ∧
    ipShapeOk (strL ("1.2.3.4")) = true :=
  (c6_variable_shapes (strL ("ip 1.2.3.4 id 9999"))
    ⟨ipPH, strL ("1.2.3.4"), .IpAddress⟩ (by decide)).1 rfl

/-- C7: `detect_pattern_lcs` returns `none` exactly when there are fewer
than 2 distinct examples, or the backbone is shorter than
`max (average_length / 10) 3` (integer division over the distinct
examples), or the computed confidence is below 1/2; otherwise it returns a
pattern. -/
theorem c7_detect_pattern_absent_iff (examples : List Str) :
    detect_pattern_lcs examples = none ↔
      (dedupAdj (sortLex examples)).length < 2 ∨
      (compute_multi_lcs (dedupAdj (sortLex examples))).length <
        max ((((dedupAdj (sortLex examples)).map List.length).sum /
          (dedupAdj (sortLex examples)).length) / 10) 3 ∨
      calculate_confidence (dedupAdj (sortLex examples))
        (compute_multi_lcs (dedupAdj (sortLex examples))) < 1 / 2 := by
  simp only [detect_pattern_lcs]
  split_ifs with h1 h2 h3 h4
  · constructor
    · intro _
      left
      have := dedupAdj_length_le (sortLex examples)
      rw [sortLex_length] at this
      omega
    · intro _
      rfl
  · constructor
    · intro _
      exact Or.inl h2
    · intro _
      rfl
  · constructor
    · intro _
      exact Or.inr (Or.inl h3)
    · intro _
      rfl
  · constructor
    · intro _
      exact Or.inr (Or.inr h4)
    · intro _
      rfl
  · constructor
    · intro hc
      simp at hc
    · intro hc
      rcases hc with hc | hc | hc
      · exact absurd hc h2
      · exact absurd hc h3
      · exact absurd hc h4

/-- C8 (counterexample): on the empty input list, clustering with
threshold 0 returns no groups at all, not a single group containing every
input string. -/
theorem c8_cluster_counterexample :
    cluster_by_similarity [] 0 ≠ [[]] := by
  decide

/-- C8 (amended): clustering is the greedy single pass described by the
claim: `cluster(["abc","abc","xyz"], 1.0)` gives `[["abc","abc"],["xyz"]]`,
and for every NON-EMPTY input list `cluster(strings, 0.0)` is the single
group containing every input string in order (similarity is always
nonnegative, so every string joins the first group). -/
theorem c8_cluster_amended :
    cluster_by_similarity [strL ("abc"), strL ("abc"), strL ("xyz")] 1 =
      [[strL ("abc"), strL ("abc")], [strL ("xyz")]] ∧
    ∀ strings : List Str, strings ≠ [] →
      cluster_by_similarity strings 0 = [strings] := by
  constructor
  · have hd1 : levenshtein_distance (strL ("abc")) (strL ("abc")) = 0 := by
      decide
    have hd2 : levenshtein_distance (strL ("xyz")) (strL ("abc")) = 3 := by
      decide
    have s1 : similarity_score (strL ("abc")) (strL ("abc")) = 1 := by
      simp only [similarity_score]
      rw [hd1]
      norm_num [strL]
    have s2 : similarity_score (strL ("xyz")) (strL ("abc")) = 0 := by
      simp only [similarity_score]
      rw [hd2]
      norm_num [strL]
    unfold cluster_by_similarity
    simp only [List.foldl_cons, List.foldl_nil]
    rw [show tryJoinCluster (strL ("abc")) 1 [] = none from rfl]
    rw [show ([] : List (List Str)) ++ [[strL ("abc")]] = [[strL ("abc")]]
      from rfl]
    rw [show tryJoinCluster (strL ("abc")) 1 [[strL ("abc")]] =
        some [[strL ("abc"), strL ("abc")]] by
      rw [tryJoinCluster]
      rw [show ([strL ("abc")] : List Str).headD [] = strL ("abc") from rfl,
        s1, if_pos (le_refl (1 : Rat))]
      rfl]
    rw [show tryJoinCluster (strL ("xyz")) 1 [[strL ("abc"), strL ("abc")]] =
        none by
      rw [tryJoinCluster]
      rw [show ([strL ("abc"), strL ("abc")] : List Str).headD [] = strL ("abc")
        from rfl, s2, if_neg (by norm_num)]
      rfl]
    rfl
  · intro strings h
    obtain ⟨s, ss, rfl⟩ := List.exists_cons_of_ne_nil h
    unfold cluster_by_similarity
    rw [List.foldl_cons]
    simp only [tryJoinCluster]
    rw [show ([] : List (List Str)) ++ [[s]] = [[s]] from rfl,
      cluster_fold_zero ss [s]]
    simp

/-- Witness for C8: a singleton list clustered at threshold 0. -/
theorem c8_cluster_amended_witness :
    cluster_by_similarity [strL ("a")] 0 = [[strL ("a")]] :=
  c8_cluster_amended.2 [strL ("a")] (by decide)

/-- C9: whole-document mode and incremental mode are observationally
equivalent — for every text, feeding the same lines one at a time to a
fresh streaming parser and finalizing produces exactly the same result
(same summary and, record for record, the same contents: in the model the
per-record id is the deterministic creation index and the dedup map
iterates in insertion order, so the results are equal outright). -/
theorem c9_modes_equivalent (content : Str) :
    LogParser.get_result
      (List.foldl LogParser.process_line LogParser.new
        (rustLines content)) =
    parse_log_content content := by
  rw [show LogParser.new = lpOf initState 0 from rfl, lp_foldl]
  simp only [LogParser.get_result, parse_log_content, lpOf, Nat.zero_add]
